import Mathlib

/-!
# Verification of the network-monitor core

A shallow embedding, in Lean 4, of the device-reconciliation logic
(`src/collectors/devices.py`), the security analyzer
(`src/security/analyzer.py`) and the alert manager
(`src/security/alerts.py`) of the network-monitor repository, together
with theorems settling the specification claims about them.

Conventions of the embedding:
* Python dicts used as insertion-ordered string-keyed maps become
  association lists `List (String × β)`; `lookupA` / `setA` mirror
  `d[k]` / `d[k] = v` semantics (replace in place when the key exists,
  append otherwise).
* A dict field that a `.get(key, default)` may find absent becomes an
  `Option`; `Option.getD` mirrors `.get`.
* Wall-clock instants (`datetime.now()`, parsed isoformat strings)
  become integers counting seconds; a stored timestamp string that may
  fail `datetime.fromisoformat` becomes an `Option Int` (`none` =
  unparseable, the `ValueError` branch).
* Python sets of ports become `Finset Nat`.
* Side effects (calls to `trigger_alert`, `create_event`,
  `_send_email_alert`) are returned as data.
-/

namespace NetworkMonitor

/-! ## Ordered association lists (Python dict semantics) -/

/-- `d.get(k)`: first binding of key `k`, if any. -/
def lookupA {β : Type} (l : List (String × β)) (k : String) : Option β :=
  (l.find? (fun p => p.1 = k)).map Prod.snd

/-- `d[k] = v`: replace the binding in place if the key is present,
append it otherwise (insertion order preserved, as for a Python dict). -/
def setA {β : Type} (l : List (String × β)) (k : String) (v : β) :
    List (String × β) :=
  if (l.find? (fun p => p.1 = k)).isSome then
    l.map (fun p => if p.1 = k then (k, v) else p)
  else
    l ++ [(k, v)]

/-- The keys of an association list. -/
def keysA {β : Type} (l : List (String × β)) : List String :=
  l.map Prod.fst

/-! ## Device collector: IP history (`DeviceCollector._update_ip_history`) -/

/-- One entry of a device's `ip_history` list:
`{"ip": ..., "first_seen": ..., "last_seen": ...}`. -/
structure IpEntry where
  ip : String
  first_seen : String
  last_seen : String
deriving DecidableEq, Repr

/-- `DeviceCollector._update_ip_history` (devices.py 534-569).
An empty history becomes a single fresh entry; otherwise the entries
are walked in order: the first entry for `current_ip` gets its
`last_seen` bumped and the list is returned; if none matches, a fresh
entry is appended.  (The Python loop-then-append is the structural
recursion below: reaching the end of the list is the empty case.) -/
def update_ip_history : List IpEntry → String → String → List IpEntry
  | [], current_ip, timestamp =>
      [{ ip := current_ip, first_seen := timestamp, last_seen := timestamp }]
  | e :: rest, current_ip, timestamp =>
      if e.ip = current_ip then
        { e with last_seen := timestamp } :: rest
      else
        e :: update_ip_history rest current_ip timestamp

/-! ## Device collector: storing sightings (`DeviceCollector.store_data`) -/

/-- A device sighting as handed to `store_data`: `mac`, `ip` and
`last_seen` are accessed with `device[...]` (mandatory); `hostname`,
`vendor` and `device_type` with `device.get(...)` (may be absent). -/
structure Sighting where
  mac : String
  ip : String
  last_seen : String
  hostname : Option String
  vendor : Option String
  device_type : Option String
deriving DecidableEq, Repr

/-- An existing MongoDB device document, every field read through
`existing_device.get(...)` and hence possibly absent. -/
structure DeviceDoc where
  first_seen : Option String
  hostname : Option String
  vendor : Option String
  device_type : Option String
  ip_history : Option (List IpEntry)
deriving DecidableEq, Repr

/-- The concrete device document that `store_data` writes. -/
structure StoredDevice where
  mac : String
  ip : String
  hostname : String
  vendor : String
  device_type : String
  first_seen : String
  last_seen : String
  ip_history : List IpEntry
deriving DecidableEq, Repr

/-- `DeviceCollector.store_data`, existing-device branch
(devices.py 496-514): the update dict passed to
`mongo_db.update_device`. -/
def store_data_existing (existing : DeviceDoc) (device : Sighting) :
    StoredDevice :=
  { mac := device.mac
    first_seen := existing.first_seen.getD device.last_seen
    last_seen := device.last_seen
    ip := device.ip
    hostname := device.hostname.getD (existing.hostname.getD "")
    vendor := device.vendor.getD (existing.vendor.getD "Unknown")
    device_type := device.device_type.getD (existing.device_type.getD "unknown")
    ip_history := update_ip_history (existing.ip_history.getD [])
      device.ip device.last_seen }

/-- `DeviceCollector.store_data`, new-device branch (devices.py 515-530):
the document passed to `mongo_db.create_device`. -/
def store_data_new (device : Sighting) : StoredDevice :=
  { mac := device.mac
    ip := device.ip
    hostname := device.hostname.getD ""
    vendor := device.vendor.getD "Unknown"
    device_type := device.device_type.getD "unknown"
    first_seen := device.last_seen
    last_seen := device.last_seen
    ip_history := [{ ip := device.ip, first_seen := device.last_seen,
                     last_seen := device.last_seen }] }

/-! ## Alert manager (`src/security/alerts.py`) -/

/-- One entry of `AlertManager.alert_history`: the `alert_data` dict
built in `trigger_alert` (alerts.py 70-81).  `details` is carried as an
opaque list of key/value pairs; the source/target device summary dicts
are attached only when truthy, hence the `Option`s. -/
structure AlertData where
  event_type : String
  severity : String
  timestamp : Int
  details : List (String × String)
  source_device : Option String
  target_device : Option String
deriving DecidableEq, Repr

/-- The mutable state of an `AlertManager`: the bounded in-memory
history, the per-event-type last-alert times, and the
`email_configured` flag computed in `__init__`. -/
structure AlertState where
  alert_history : List AlertData
  last_alert_time : List (String × Int)
  email_configured : Bool
deriving DecidableEq, Repr

/-- The state of a freshly constructed `AlertManager` (alerts.py 32-41). -/
def AlertState.initial (email_configured : Bool) : AlertState :=
  { alert_history := [], last_alert_time := [], email_configured }

/-- `AlertManager._should_send_alert` (alerts.py 102-137): high severity
always passes; otherwise the last recorded alert time of the same
`event_type` throttles medium alerts within 300 s and low alerts within
1800 s.  Timestamps are modelled as integer seconds, so the
`ValueError` (unparseable timestamp) escape hatch cannot fire. -/
def should_send_alert (last_alert_time : List (String × Int))
    (event_type severity : String) (now : Int) : Bool :=
  if severity = "high" then
    true
  else
    match lookupA last_alert_time event_type with
    | none => true
    | some last =>
        let time_diff := now - last
        if severity = "medium" ∧ time_diff < 300 then false
        else if severity = "low" ∧ time_diff < 1800 then false
        else true

/-- What one call to `trigger_alert` returns and does: the boolean
result, the successor state, the history entry appended (if any) and
whether an email dispatch was attempted. -/
structure TriggerResult where
  sent : Bool
  state : AlertState
  appended : Option AlertData
  email_attempted : Bool
deriving DecidableEq, Repr

/-- `AlertManager.trigger_alert` (alerts.py 46-100).  On throttle:
return `False`, touch nothing.  On pass: append the alert to the
history, truncate the history to its last 100 entries when it exceeds
100, record the last-alert time for the event type, and attempt an
email exactly when email is configured and severity is high or medium. -/
def trigger_alert (st : AlertState) (event_type severity : String)
    (details : List (String × String))
    (source_device target_device : Option String) (now : Int) :
    TriggerResult :=
  if ¬ should_send_alert st.last_alert_time event_type severity now then
    { sent := false, state := st, appended := none, email_attempted := false }
  else
    let alert_data : AlertData :=
      { event_type, severity, timestamp := now, details,
        source_device, target_device }
    let history := st.alert_history ++ [alert_data]
    let history :=
      if history.length > 100 then history.drop (history.length - 100)
      else history
    { sent := true
      state :=
        { alert_history := history
          last_alert_time := setA st.last_alert_time event_type now
          email_configured := st.email_configured }
      appended := some alert_data
      email_attempted :=
        st.email_configured ∧ (severity = "high" ∨ severity = "medium") }

/-- One queued call to `trigger_alert` (its arguments). -/
structure TriggerCall where
  event_type : String
  severity : String
  details : List (String × String)
  source_device : Option String
  target_device : Option String
  now : Int
deriving DecidableEq, Repr

/-- Replay a sequence of `trigger_alert` calls, returning the final
state together with the chronological list of history entries that were
appended along the way. -/
def run_alerts : AlertState → List TriggerCall → AlertState × List AlertData
  | st, [] => (st, [])
  | st, c :: rest =>
      let r := trigger_alert st c.event_type c.severity c.details
        c.source_device c.target_device c.now
      ((run_alerts r.state rest).1,
        r.appended.toList ++ (run_alerts r.state rest).2)

/-! ## Security analyzer (`src/security/analyzer.py`) -/

/-- An alert request as handed to `alert_manager.trigger_alert` by the
analyzer (only the fields the claims are about). -/
structure AlertReq where
  event_type : String
  severity : String
deriving DecidableEq, Repr

/-- A `SecurityEvent` document as handed to `mongo_db.create_event`
(only the fields the claims are about). -/
structure EventDoc where
  event_type : String
  severity : String
deriving DecidableEq, Repr

/-- A device document as read back from MongoDB inside the analyzer. -/
structure AnalyzerDevice where
  ip : String
  mac : String
  hostname : Option String
  vendor : Option String
  device_type : Option String
  first_seen : Option String
deriving DecidableEq, Repr

/-- One entry of `device_history[mac]["connections"]`; only its
optional `"ip"` field is read by `_handle_new_device`. -/
structure HistConn where
  ip : Option String
deriving DecidableEq, Repr

/-- The per-MAC `device_history` record; only `connections` is read by
the code under verification (the statistics fields are initialised and
never consulted by these paths). -/
structure DeviceHistory where
  connections : List HistConn
deriving DecidableEq, Repr

/-- `suspicious_vendors` (analyzer.py 167). -/
def suspicious_vendors : List String :=
  ["unknown", "raspberrypi", "arduino", "espressif"]

/-- `suspicious_hostnames` (analyzer.py 173). -/
def suspicious_hostnames : List String :=
  ["kali", "parrot", "pentoo", "blackarch", "test", "admin"]

/-- Python `needle in haystack` substring test on strings. -/
def strContains (haystack needle : String) : Bool :=
  decide (needle.data <:+: haystack.data)

/-- What `_handle_new_device` produces: the severity it decided on, the
alert it triggers, the event it persists, and the updated
`device_history`. -/
structure HandleNewDeviceResult where
  severity : String
  alert : AlertReq
  event : EventDoc
  device_history : List (String × DeviceHistory)
deriving Repr

/-- `SecurityAnalyzer._handle_new_device` (analyzer.py 148-236).
Suspicion: vendor (lowercased, default `"Unknown"`) in the suspicious
vendor list, or the lowercased hostname (default `"Unknown"`)
containing a suspicious substring, or the MAC present in
`device_history` with a non-empty set of previously recorded IPs not
containing the current IP.  Severity is `"medium"` iff suspicious, else
`"low"`; an alert is always triggered and a `"new_device"` event is
always persisted; the MAC's history record is initialised if absent. -/
def handle_new_device (device_history : List (String × DeviceHistory))
    (device : AnalyzerDevice) : HandleNewDeviceResult :=
  let ip := device.ip
  let mac := device.mac
  let hostname := device.hostname.getD "Unknown"
  let vendor := device.vendor.getD "Unknown"
  let vendor_suspicious : Bool := suspicious_vendors.contains vendor.toLower
  let hostname_suspicious : Bool :=
    suspicious_hostnames.any (fun s => strContains hostname.toLower s)
  let spoof_suspicious : Bool :=
    match lookupA device_history mac with
    | none => false
    | some h =>
        let previous_ips := h.connections.filterMap HistConn.ip
        !previous_ips.contains ip && !previous_ips.isEmpty
  let is_suspicious := vendor_suspicious || hostname_suspicious || spoof_suspicious
  let severity := if is_suspicious then "medium" else "low"
  { severity
    alert := { event_type := "new_device", severity }
    event := { event_type := "new_device", severity }
    device_history :=
      if (lookupA device_history mac).isSome then device_history
      else device_history ++ [(mac, { connections := [] })] }

/-- One bandwidth metric point; `bw.get("total_bps", 0)` may find the
field absent. -/
structure BwPoint where
  total_bps : Option ℚ
deriving DecidableEq, Repr

/-- One entry of the analyzer's rolling `bandwidth_history`. -/
structure BwHistEntry where
  timestamp : Int
  avg_mbps : ℚ
  peak_mbps : ℚ
deriving DecidableEq, Repr

/-- Python `max` of a non-empty list (the empty case is unreachable
behind the emptiness guard in `_analyze_bandwidth`). -/
def listMax : List ℚ → ℚ
  | [] => 0
  | x :: xs => xs.foldl max x

/-- `SecurityAnalyzer._analyze_bandwidth` (analyzer.py 238-303): with no
metrics, do nothing; otherwise compute average and peak Mbps, alert
(and persist an event) exactly when the peak exceeds the threshold,
with severity graded by how far it exceeds it, then append to the
rolling history and prune entries older than one day.  Returns the
optional alert (the event persisted alongside it is identical in the
modelled fields) and the new history. -/
def analyze_bandwidth (bandwidth_metrics : List BwPoint)
    (bandwidth_threshold : ℚ) (bandwidth_history : List BwHistEntry)
    (now : Int) : Option AlertReq × List BwHistEntry :=
  match bandwidth_metrics with
  | [] => (none, bandwidth_history)
  | _ :: _ =>
      let values := bandwidth_metrics.map (fun bw => bw.total_bps.getD 0)
      let total_bandwidth := values.sum
      let avg_bandwidth_mbps := total_bandwidth / bandwidth_metrics.length / 1000000
      let peak_bandwidth_mbps := listMax values / 1000000
      let alert : Option AlertReq :=
        if peak_bandwidth_mbps > bandwidth_threshold then
          let severity :=
            if peak_bandwidth_mbps > bandwidth_threshold * 2 then "high"
            else if peak_bandwidth_mbps > bandwidth_threshold * (3/2) then "medium"
            else "low"
          some { event_type := "high_bandwidth", severity }
        else none
      let history := bandwidth_history ++
        [{ timestamp := now, avg_mbps := avg_bandwidth_mbps,
           peak_mbps := peak_bandwidth_mbps }]
      let one_day_ago := now - 86400
      (alert, history.filter (fun e => one_day_ago < e.timestamp))

/-! ## Security analyzer: port-scan detection and cache cleanup -/

/-- One connection event as consumed by `_check_port_scan`:
`"target_ip"` may be absent (`continue`), `"target_port"` is read with
`.get` and skipped when `None`. -/
structure ConnEvent where
  target_ip : Option String
  target_port : Option Nat
  timestamp : Int
deriving DecidableEq, Repr

/-- `port_scan_cache[mac]["targets"][target_ip]`: the accumulated set of
ports and the cached `first_seen` stamp (`none` models a string that
`datetime.fromisoformat` rejects). -/
structure TargetData where
  ports : Finset Nat
  first_seen : Option Int
deriving DecidableEq

/-- `port_scan_cache[mac]`: per-target accumulation plus the time of the
last `port_scan` alert for this MAC. -/
structure PortScanEntry where
  targets : List (String × TargetData)
  last_alert : Option Int
deriving DecidableEq

/-- The local `targets` grouping built by `_check_port_scan`
(analyzer.py 358-377): per target IP, the distinct ports and the
timestamps of the connections that contacted it, in first-appearance
order. -/
def group_targets (connections : List ConnEvent) :
    List (String × (Finset Nat × List Int)) :=
  connections.foldl
    (fun targets conn =>
      match conn.target_ip, conn.target_port with
      | none, _ => targets
      | _, none => targets
      | some target_ip, some port =>
          let cur := (lookupA targets target_ip).getD (∅, [])
          setA targets target_ip (insert port cur.1, cur.2 ++ [conn.timestamp]))
    []

/-- The body of the per-target loop of `_check_port_scan`
(analyzer.py 380-436), threading the per-MAC cache entry and the list
of alerts emitted so far: merge the target's new ports into the cache
(stamping `first_seen = now` for a fresh target), and if the
accumulated port set has reached 10 while the MAC's last alert is
absent or more than 3600 s old — and the device is found in MongoDB —
emit one `port_scan`/`medium` alert (the identical event document is
persisted alongside) and set `last_alert := now`. -/
def process_target (device : Option AnalyzerDevice) (now : Int)
    (st : PortScanEntry × List AlertReq)
    (tgt : String × (Finset Nat × List Int)) :
    PortScanEntry × List AlertReq :=
  let (entry, alerts) := st
  let (target_ip, data) := tgt
  let cur := (lookupA entry.targets target_ip).getD
    { ports := ∅, first_seen := some now }
  let merged : TargetData := { cur with ports := cur.ports ∪ data.1 }
  let targets := setA entry.targets target_ip merged
  let port_count := merged.ports.card
  if port_count ≥ 10 then
    if (match entry.last_alert with
        | none => true
        | some last => decide ((now - last) > 3600)) then
      match device with
      | some _ =>
          ({ targets, last_alert := some now },
            alerts ++ [{ event_type := "port_scan", severity := "medium" }])
      | none => ({ targets, last_alert := entry.last_alert }, alerts)
    else ({ targets, last_alert := entry.last_alert }, alerts)
  else ({ targets, last_alert := entry.last_alert }, alerts)

/-- `SecurityAnalyzer._check_port_scan` (analyzer.py 337-436) for one
MAC: initialise the MAC's cache entry if absent, group the connections
by target, then run the per-target loop.  Returns the MAC's updated
cache entry and the alerts emitted. -/
def check_port_scan (cache_entry : Option PortScanEntry)
    (connections : List ConnEvent) (device : Option AnalyzerDevice)
    (now : Int) : PortScanEntry × List AlertReq :=
  let entry := cache_entry.getD { targets := [], last_alert := none }
  (group_targets connections).foldl (process_target device now) (entry, [])

/-- `SecurityAnalyzer._cleanup_cache` (analyzer.py 646-667): drop every
target whose cached `first_seen` is unparseable or more than 86400 s
before `now`, then drop every MAC whose target map became empty. -/
def cleanup_cache (port_scan_cache : List (String × PortScanEntry))
    (now : Int) : List (String × PortScanEntry) :=
  let cleaned := port_scan_cache.map (fun p =>
    (p.1, { p.2 with targets := p.2.targets.filter (fun t =>
      match t.2.first_seen with
      | none => false
      | some fs => decide (¬ ((now - fs) > 86400))) }))
  cleaned.filter (fun p => ¬ p.2.targets.isEmpty)

/-! ## Device collector: merging scan results
(`DeviceCollector._merge_scan_results`) -/

/-- A raw scan result (devices.py 112-117 and 197-202): both the ARP
and the ping scanner produce exactly `{ip, mac, last_seen,
scan_method}`. -/
structure ScanDevice where
  ip : String
  mac : String
  last_seen : String
  scan_method : String
deriving DecidableEq, Repr

/-- The ARP half of `_merge_scan_results` (devices.py 407-409):
`devices_by_mac[mac] = device`. -/
def arp_step (m : List (String × ScanDevice)) (device : ScanDevice) :
    List (String × ScanDevice) :=
  setA m device.mac device

/-- The ping half of `_merge_scan_results` (devices.py 412-418): a MAC
not yet indexed is added; one already indexed has the stored record's
`scan_method` rewritten to `"arp+ping"`. -/
def ping_step (m : List (String × ScanDevice)) (device : ScanDevice) :
    List (String × ScanDevice) :=
  if (lookupA m device.mac).isSome then
    m.map (fun p =>
      if p.1 = device.mac then (p.1, { p.2 with scan_method := "arp+ping" })
      else p)
  else m ++ [(device.mac, device)]

/-- `DeviceCollector._merge_scan_results` (devices.py 391-420): index
the ARP results by MAC (later duplicates overwrite), then walk the ping
results.  Returns the stored records in insertion order. -/
def merge_scan_results (arp_devices ping_devices : List ScanDevice) :
    List ScanDevice :=
  (ping_devices.foldl ping_step (arp_devices.foldl arp_step [])).map
    Prod.snd

/-! ## Derived quantities and sample data used by the theorems -/

/-- The peak throughput in Mbps computed by `_analyze_bandwidth`
(analyzer.py 253-254). -/
def peak_mbps (bandwidth_metrics : List BwPoint) : ℚ :=
  listMax (bandwidth_metrics.map (fun bw => bw.total_bps.getD 0)) / 1000000

/-- The ports already cached for a target (∅ when the target is new). -/
def oldPorts (targets : List (String × TargetData)) (tip : String) :
    Finset Nat :=
  match lookupA targets tip with
  | none => ∅
  | some td => td.ports

/-- The alert `_check_port_scan` hands to the alert manager. -/
def port_scan_alert : AlertReq :=
  { event_type := "port_scan", severity := "medium" }

/-- A concrete batch of ten connection events from one MAC to one
target, on ports 1 through 10. -/
def sample_connections : List ConnEvent :=
  (List.range 10).map (fun i =>
    { target_ip := some "10.0.0.9", target_port := some (i + 1),
      timestamp := 0 })

/-- A concrete device record for the witness scenarios. -/
def sample_device : AnalyzerDevice :=
  { ip := "10.0.0.2", mac := "AA", hostname := none, vendor := none,
    device_type := none, first_seen := none }

/-! ## Theorems: IP history (claim C1) -/

/-- When the current IP has no entry, `_update_ip_history` appends a
fresh entry and touches nothing else. -/
theorem update_ip_history_not_mem (hist : List IpEntry) (ip ts : String)
    (h : ip ∉ hist.map IpEntry.ip) :
    update_ip_history hist ip ts
      = hist ++ [{ ip := ip, first_seen := ts, last_seen := ts }] := by
  induction hist with
  | nil => simp [update_ip_history]
  | cons e rest ih =>
      simp only [List.map_cons, List.mem_cons] at h
      push_neg at h
      rw [update_ip_history, if_neg (fun he => h.1 he.symm), ih h.2]
      simp

/-- Mapping a function that fixes no entry's IP over a history fixes
the history when the given IP is absent. -/
theorem map_bump_of_not_mem (hist : List IpEntry) (ip ts : String)
    (h : ip ∉ hist.map IpEntry.ip) :
    hist.map (fun e => if e.ip = ip then { e with last_seen := ts } else e)
      = hist := by
  induction hist with
  | nil => simp
  | cons e rest ih =>
      simp only [List.map_cons, List.mem_cons] at h
      push_neg at h
      simp only [List.map_cons,
        if_neg (fun he : e.ip = ip => h.1 he.symm), ih h.2]

/-- When the current IP already has an entry and IPs are distinct,
`_update_ip_history` bumps exactly that entry's `last_seen`. -/
theorem update_ip_history_mem (hist : List IpEntry) (ip ts : String)
    (hnodup : (hist.map IpEntry.ip).Nodup) (h : ip ∈ hist.map IpEntry.ip) :
    update_ip_history hist ip ts
      = hist.map (fun e => if e.ip = ip then { e with last_seen := ts } else e) := by
  induction hist with
  | nil => simp at h
  | cons e rest ih =>
      simp only [List.map_cons, List.nodup_cons] at hnodup
      simp only [List.map_cons, List.mem_cons] at h
      by_cases he : e.ip = ip
      · rw [update_ip_history, if_pos he, List.map_cons, if_pos he,
          map_bump_of_not_mem rest ip ts (he ▸ hnodup.1)]
      · rcases h with h | h
        · exact absurd h.symm he
        · rw [update_ip_history, if_neg he, List.map_cons, if_neg he,
            ih hnodup.2 h]

/-- `_update_ip_history` leaves the IP of every entry unchanged in the
repeated-IP case. -/
theorem update_ip_history_map_ip (hist : List IpEntry) (ip ts : String)
    (hnodup : (hist.map IpEntry.ip).Nodup) :
    (update_ip_history hist ip ts).map IpEntry.ip
      = if ip ∈ hist.map IpEntry.ip then hist.map IpEntry.ip
        else hist.map IpEntry.ip ++ [ip] := by
  by_cases h : ip ∈ hist.map IpEntry.ip
  · rw [if_pos h, update_ip_history_mem hist ip ts hnodup h, List.map_map]
    apply List.map_congr_left
    intro e _
    by_cases he : e.ip = ip <;> simp [he]
  · rw [if_neg h, update_ip_history_not_mem hist ip ts h]
    simp

/-- C1: for every existing ip_history list (one whose entries carry
pairwise-distinct IPs), current IP and timestamp, `_update_ip_history`
keeps exactly one entry per distinct IP and never removes an entry: a
repeated IP only has that entry's `last_seen` set to the new timestamp
(its `first_seen` and all other entries unchanged), an unseen IP gets a
fresh `{ip, first_seen = timestamp, last_seen = timestamp}` entry
appended, and an empty history becomes that single entry. -/
theorem C1_update_ip_history (hist : List IpEntry) (ip ts : String)
    (hnodup : (hist.map IpEntry.ip).Nodup) :
    ((update_ip_history hist ip ts).map IpEntry.ip).Nodup
    ∧ (update_ip_history hist ip ts).map IpEntry.ip
        = (if ip ∈ hist.map IpEntry.ip then hist.map IpEntry.ip
           else hist.map IpEntry.ip ++ [ip])
    ∧ (ip ∈ hist.map IpEntry.ip →
        update_ip_history hist ip ts
          = hist.map (fun e => if e.ip = ip then { e with last_seen := ts }
                               else e))
    ∧ (ip ∉ hist.map IpEntry.ip →
        update_ip_history hist ip ts
          = hist ++ [{ ip := ip, first_seen := ts, last_seen := ts }])
    ∧ update_ip_history [] ip ts
        = [{ ip := ip, first_seen := ts, last_seen := ts }] := by
  refine ⟨?_, update_ip_history_map_ip hist ip ts hnodup,
    update_ip_history_mem hist ip ts hnodup,
    update_ip_history_not_mem hist ip ts, rfl⟩
  rw [update_ip_history_map_ip hist ip ts hnodup]
  by_cases h : ip ∈ hist.map IpEntry.ip
  · simpa [h] using hnodup
  · simp only [h, if_false]
    rw [List.nodup_append]
    exact ⟨hnodup, List.nodup_singleton ip,
      fun a ha hb => h ((List.mem_singleton.mp hb) ▸ ha)⟩

/-- Witness for C1 at a concrete two-entry history whose second IP is
sighted again: only that entry's `last_seen` moves. -/
theorem C1_update_ip_history_witness :
    (([{ ip := "10.0.0.1", first_seen := "T0", last_seen := "T0" },
       { ip := "10.0.0.2", first_seen := "T1", last_seen := "T1" }] :
       List IpEntry).map IpEntry.ip).Nodup
    ∧ update_ip_history
        [{ ip := "10.0.0.1", first_seen := "T0", last_seen := "T0" },
         { ip := "10.0.0.2", first_seen := "T1", last_seen := "T1" }]
        "10.0.0.2" "T2"
      = [{ ip := "10.0.0.1", first_seen := "T0", last_seen := "T0" },
         { ip := "10.0.0.2", first_seen := "T1", last_seen := "T2" }] := by
  refine ⟨by decide, ?_⟩
  rw [(C1_update_ip_history
    [{ ip := "10.0.0.1", first_seen := "T0", last_seen := "T0" },
     { ip := "10.0.0.2", first_seen := "T1", last_seen := "T1" }]
    "10.0.0.2" "T2" (by decide)).2.2.1 (by decide)]
  decide

/-! ## Theorems: storing sightings (claim C2) -/

/-- Counterexample to C2 as stated: the existing record holds known
(non-empty, non-unknown) hostname `"myhost"`, vendor `"Acme"` and
device_type `"computer"`, while the new sighting carries hostname `""`,
vendor `"Unknown"` and device_type `"unknown"` — and `store_data`
overwrites all three with those degraded values (the `.get(key,
existing)` fallback fires only when the sighting lacks the key
entirely, not when its value is empty or unknown). -/
theorem C2_store_data_counterexample :
    (store_data_existing
        { first_seen := some "T0", hostname := some "myhost",
          vendor := some "Acme", device_type := some "computer",
          ip_history := some [{ ip := "10.0.0.5", first_seen := "T0",
                                last_seen := "T0" }] }
        { mac := "AA:BB:CC:11:22:33", ip := "10.0.0.5", last_seen := "T1",
          hostname := some "", vendor := some "Unknown",
          device_type := some "unknown" }).hostname = ""
    ∧ (store_data_existing
        { first_seen := some "T0", hostname := some "myhost",
          vendor := some "Acme", device_type := some "computer",
          ip_history := some [{ ip := "10.0.0.5", first_seen := "T0",
                                last_seen := "T0" }] }
        { mac := "AA:BB:CC:11:22:33", ip := "10.0.0.5", last_seen := "T1",
          hostname := some "", vendor := some "Unknown",
          device_type := some "unknown" }).vendor = "Unknown"
    ∧ (store_data_existing
        { first_seen := some "T0", hostname := some "myhost",
          vendor := some "Acme", device_type := some "computer",
          ip_history := some [{ ip := "10.0.0.5", first_seen := "T0",
                                last_seen := "T0" }] }
        { mac := "AA:BB:CC:11:22:33", ip := "10.0.0.5", last_seen := "T1",
          hostname := some "", vendor := some "Unknown",
          device_type := some "unknown" }).device_type = "unknown" := by
  refine ⟨rfl, rfl, rfl⟩

/-- C2 amended: for an existing MAC, `store_data` preserves the
record's `first_seen` whenever the record has one (never regressing
it), sets `last_seen` and `ip` from the sighting, updates `ip_history`
through `_update_ip_history`, and takes hostname/vendor/device_type
from the sighting whenever the sighting carries the field — even when
that value is empty or `"unknown"`/`"Unknown"` — falling back to the
existing value (with defaults `""`/`"Unknown"`/`"unknown"`) only when
the sighting lacks the field. -/
theorem C2_store_data_amended (existing : DeviceDoc) (device : Sighting)
    (fs : String) (h : existing.first_seen = some fs) :
    (store_data_existing existing device).first_seen = fs
    ∧ (store_data_existing existing device).last_seen = device.last_seen
    ∧ (store_data_existing existing device).ip = device.ip
    ∧ (∀ hn, device.hostname = some hn →
        (store_data_existing existing device).hostname = hn)
    ∧ (device.hostname = none →
        (store_data_existing existing device).hostname
          = existing.hostname.getD "")
    ∧ (∀ v, device.vendor = some v →
        (store_data_existing existing device).vendor = v)
    ∧ (device.vendor = none →
        (store_data_existing existing device).vendor
          = existing.vendor.getD "Unknown")
    ∧ (∀ dt, device.device_type = some dt →
        (store_data_existing existing device).device_type = dt)
    ∧ (device.device_type = none →
        (store_data_existing existing device).device_type
          = existing.device_type.getD "unknown")
    ∧ (store_data_existing existing device).ip_history
        = update_ip_history (existing.ip_history.getD [])
            device.ip device.last_seen := by
  refine ⟨by simp [store_data_existing, h], rfl, rfl,
    fun hn hx => ?_, fun hx => ?_, fun v hx => ?_, fun hx => ?_,
    fun dt hx => ?_, fun hx => ?_, rfl⟩
  all_goals simp [store_data_existing, hx]

/-- Witness for the amended C2 at a concrete existing record and an
incoming sighting that lacks the hostname/vendor/device_type fields:
`first_seen` is preserved and the known hostname survives. -/
theorem C2_store_data_amended_witness :
    (({ first_seen := some "T0", hostname := some "myhost",
        vendor := some "Acme", device_type := some "computer",
        ip_history := some [] } : DeviceDoc).first_seen = some "T0")
    ∧ (store_data_existing
        { first_seen := some "T0", hostname := some "myhost",
          vendor := some "Acme", device_type := some "computer",
          ip_history := some [] }
        { mac := "AA", ip := "10.0.0.7", last_seen := "T1",
          hostname := none, vendor := none,
          device_type := none }).first_seen = "T0"
    ∧ (store_data_existing
        { first_seen := some "T0", hostname := some "myhost",
          vendor := some "Acme", device_type := some "computer",
          ip_history := some [] }
        { mac := "AA", ip := "10.0.0.7", last_seen := "T1",
          hostname := none, vendor := none,
          device_type := none }).hostname = "myhost" := by
  refine ⟨rfl, (C2_store_data_amended _ _ "T0" rfl).1, ?_⟩
  rw [(C2_store_data_amended
    { first_seen := some "T0", hostname := some "myhost",
      vendor := some "Acme", device_type := some "computer",
      ip_history := some [] }
    { mac := "AA", ip := "10.0.0.7", last_seen := "T1",
      hostname := none, vendor := none, device_type := none }
    "T0" rfl).2.2.2.2.1 rfl]
  rfl

/-! ## Association-list lemmas -/

theorem lookupA_cons {β : Type} (a : String) (b : β) (l : List (String × β))
    (k : String) :
    lookupA ((a, b) :: l) k = if a = k then some b else lookupA l k := by
  by_cases h : a = k
  · simp [lookupA, List.find?_cons, h]
  · simp [lookupA, List.find?_cons, h]

theorem lookupA_append_of_none {β : Type} (l₁ l₂ : List (String × β))
    (k : String) (h : lookupA l₁ k = none) :
    lookupA (l₁ ++ l₂) k = lookupA l₂ k := by
  induction l₁ with
  | nil => simp
  | cons p rest ih =>
      obtain ⟨a, b⟩ := p
      rw [lookupA_cons] at h
      by_cases ha : a = k
      · simp [ha] at h
      · rw [List.cons_append, lookupA_cons, if_neg ha]
        exact ih (by rwa [if_neg ha] at h)

theorem lookupA_append_of_some {β : Type} (l₁ l₂ : List (String × β))
    (k : String) (w : β) (h : lookupA l₁ k = some w) :
    lookupA (l₁ ++ l₂) k = some w := by
  induction l₁ with
  | nil => simp [lookupA] at h
  | cons p rest ih =>
      obtain ⟨a, b⟩ := p
      rw [lookupA_cons] at h
      by_cases ha : a = k
      · rw [if_pos ha] at h
        rw [List.cons_append, lookupA_cons, if_pos ha]
        exact h
      · rw [if_neg ha] at h
        rw [List.cons_append, lookupA_cons, if_neg ha]
        exact ih h

theorem setA_of_some {β : Type} (l : List (String × β)) (k : String) (v : β)
    (h : (lookupA l k).isSome) :
    setA l k v = l.map (fun p => if p.1 = k then (k, v) else p) := by
  rw [setA, if_pos]
  rw [lookupA] at h
  cases hf : List.find? (fun p => decide (p.1 = k)) l with
  | none => rw [hf] at h; simp at h
  | some p => simp [hf]

theorem setA_of_none {β : Type} (l : List (String × β)) (k : String) (v : β)
    (h : lookupA l k = none) :
    setA l k v = l ++ [(k, v)] := by
  rw [lookupA] at h
  have hf : List.find? (fun p => decide (p.1 = k)) l = none := by
    cases hf : List.find? (fun p => decide (p.1 = k)) l with
    | none => rfl
    | some p => rw [hf] at h; simp at h
  rw [setA, hf]
  simp

theorem lookupA_map_update_self {β : Type} (l : List (String × β))
    (k : String) (v w : β) (h : lookupA l k = some w) :
    lookupA (l.map (fun p => if p.1 = k then (k, v) else p)) k = some v := by
  induction l with
  | nil => simp [lookupA] at h
  | cons p rest ih =>
      obtain ⟨a, b⟩ := p
      rw [lookupA_cons] at h
      simp only [List.map_cons]
      by_cases ha : a = k
      · subst ha
        rw [show (if (a, b).1 = a then (a, v) else (a, b)) = (a, v) by simp,
          lookupA_cons, if_pos rfl]
      · rw [if_neg ha] at h
        rw [show (if (a, b).1 = k then (k, v) else (a, b)) = (a, b) by
            simp [ha],
          lookupA_cons, if_neg ha, ih h]

theorem lookupA_map_update_ne {β : Type} (l : List (String × β))
    (k k' : String) (v : β) (h : k' ≠ k) :
    lookupA (l.map (fun p => if p.1 = k then (k, v) else p)) k'
      = lookupA l k' := by
  induction l with
  | nil => simp
  | cons p rest ih =>
      obtain ⟨a, b⟩ := p
      simp only [List.map_cons]
      by_cases ha : a = k
      · subst ha
        rw [show (if (a, b).1 = a then (a, v) else (a, b)) = (a, v) by simp,
          lookupA_cons, lookupA_cons, if_neg (fun h' : a = k' => h h'.symm),
          if_neg (fun h' : a = k' => h h'.symm), ih]
      · rw [show (if (a, b).1 = k then (k, v) else (a, b)) = (a, b) by
            simp [ha],
          lookupA_cons, lookupA_cons]
        by_cases hak : a = k'
        · simp [hak]
        · rw [if_neg hak, if_neg hak, ih]

theorem lookupA_setA_self {β : Type} (l : List (String × β)) (k : String)
    (v : β) : lookupA (setA l k v) k = some v := by
  cases h : lookupA l k with
  | none =>
      rw [setA_of_none l k v h, lookupA_append_of_none l _ k h, lookupA_cons,
        if_pos rfl]
  | some w =>
      rw [setA_of_some l k v (by simp [h]), lookupA_map_update_self l k v w h]

theorem lookupA_setA_ne {β : Type} (l : List (String × β)) (k k' : String)
    (v : β) (h : k' ≠ k) : lookupA (setA l k v) k' = lookupA l k' := by
  cases hl : lookupA l k with
  | none =>
      rw [setA_of_none l k v hl]
      cases hk' : lookupA l k' with
      | none =>
          rw [lookupA_append_of_none l _ k' hk', lookupA_cons,
            if_neg (fun hk => h hk.symm)]
          rfl
      | some w => rw [lookupA_append_of_some l _ k' w hk']
  | some w =>
      rw [setA_of_some l k v (by simp [hl]), lookupA_map_update_ne l k k' v h]

theorem keysA_setA_of_some {β : Type} (l : List (String × β)) (k : String)
    (v : β) (h : (lookupA l k).isSome) : keysA (setA l k v) = keysA l := by
  rw [setA_of_some l k v h, keysA, keysA, List.map_map]
  apply List.map_congr_left
  intro p _
  by_cases hp : p.1 = k <;> simp [hp]

theorem keysA_setA_of_none {β : Type} (l : List (String × β)) (k : String)
    (v : β) (h : lookupA l k = none) :
    keysA (setA l k v) = keysA l ++ [k] := by
  rw [setA_of_none l k v h, keysA, keysA]
  simp

/-! ## Theorems: alert throttling (claims C3, C10, C8) -/

/-- `trigger_alert` returns exactly the throttling verdict of
`_should_send_alert`. -/
theorem trigger_alert_sent (st : AlertState) (event_type severity : String)
    (details : List (String × String)) (src tgt : Option String) (now : Int) :
    (trigger_alert st event_type severity details src tgt now).sent
      = should_send_alert st.last_alert_time event_type severity now := by
  rw [trigger_alert]
  by_cases h : should_send_alert st.last_alert_time event_type severity now
  · rw [if_neg (by simpa using h), h]
  · rw [if_pos (by simpa using h)]
    simpa using (Bool.not_eq_true _).mp h

/-- C3: `trigger_alert` returns `true` iff the alert passes throttling:
a `"high"` alert always passes; otherwise, if a last alert of the same
`event_type` is recorded, a `"medium"` alert passes iff it is not
within the previous 300 s and a `"low"` alert iff not within the
previous 1800 s — the throttle key being the event type alone (the
device plays no role: it is not even an argument of the check).  In
particular, from a state with no record for the type, two `"medium"`
alerts of the same type 240 s apart dispatch only the first, and 360 s
apart dispatch both. -/
theorem C3_trigger_alert_throttling (st : AlertState)
    (event_type severity : String) (details : List (String × String))
    (src tgt : Option String) (now : Int) :
    ((trigger_alert st event_type severity details src tgt now).sent = true
      ↔ (severity = "high"
         ∨ ∀ last, lookupA st.last_alert_time event_type = some last →
             (¬(severity = "medium" ∧ now - last < 300)
              ∧ ¬(severity = "low" ∧ now - last < 1800))))
    ∧ (lookupA st.last_alert_time event_type = none →
        ((trigger_alert st event_type "medium" details src tgt now).sent
            = true
        ∧ (trigger_alert
            (trigger_alert st event_type "medium" details src tgt now).state
            event_type "medium" details src tgt (now + 240)).sent = false
        ∧ (trigger_alert
            (trigger_alert st event_type "medium" details src tgt now).state
            event_type "medium" details src tgt (now + 360)).sent = true)) := by
  constructor
  · rw [trigger_alert_sent, should_send_alert]
    by_cases hh : severity = "high"
    · simp [hh]
    · rw [if_neg hh]
      cases hl : lookupA st.last_alert_time event_type with
      | none => simp [hh, hl]
      | some last =>
          simp only [hh, false_or]
          constructor
          · intro h lt hlt
            cases hlt
            split_ifs at h with h1 h2
            exact ⟨h1, h2⟩
          · intro h
            obtain ⟨h1, h2⟩ := h last rfl
            rw [if_neg h1, if_neg h2]
  · intro hl
    have hsend : should_send_alert st.last_alert_time event_type "medium" now
        = true := by
      rw [should_send_alert]
      simp [hl]
    have h1 : (trigger_alert st event_type "medium" details src tgt now).sent
        = true := by rw [trigger_alert_sent, hsend]
    have hstate :
        (trigger_alert st event_type "medium" details src tgt
          now).state.last_alert_time
          = setA st.last_alert_time event_type now := by
      rw [trigger_alert, if_neg (by simp [hsend])]
    refine ⟨h1, ?_, ?_⟩
    · rw [trigger_alert_sent, hstate, should_send_alert,
        if_neg (show ¬("medium" = "high") by decide), lookupA_setA_self]
      have h240 : now + 240 - now = 240 := by ring
      simp [h240]
    · rw [trigger_alert_sent, hstate, should_send_alert,
        if_neg (show ¬("medium" = "high") by decide), lookupA_setA_self]
      have h360 : now + 360 - now = 360 := by ring
      simp [h360]

/-- Witness for C3: a concrete manager state with no record for
`"port_scan"`; the 240 s / 360 s medium-alert scenario plays out as
stated. -/
theorem C3_trigger_alert_throttling_witness :
    (((trigger_alert (AlertState.initial false) "port_scan" "medium" [] none
        none 1000).sent = true
      ↔ ("medium" = "high"
         ∨ ∀ last,
             lookupA (AlertState.initial false).last_alert_time "port_scan"
               = some last →
             (¬("medium" = "medium" ∧ (1000 : Int) - last < 300)
              ∧ ¬("medium" = "low" ∧ (1000 : Int) - last < 1800))))
    ∧ (lookupA (AlertState.initial false).last_alert_time "port_scan" = none →
        ((trigger_alert (AlertState.initial false) "port_scan" "medium" []
            none none 1000).sent = true
        ∧ (trigger_alert
            (trigger_alert (AlertState.initial false) "port_scan" "medium" []
              none none 1000).state
            "port_scan" "medium" [] none none (1000 + 240)).sent = false
        ∧ (trigger_alert
            (trigger_alert (AlertState.initial false) "port_scan" "medium" []
              none none 1000).state
            "port_scan" "medium" [] none none (1000 + 360)).sent = true))) :=
  C3_trigger_alert_throttling (AlertState.initial false) "port_scan" "medium"
    [] none none 1000

/-- C10: when a call to `trigger_alert` is throttled it returns `False`
and leaves the manager state entirely unchanged — nothing is appended
to the history, the last-alert time for the event type is untouched,
and no email dispatch is attempted. -/
theorem C10_trigger_alert_throttled_pure (st : AlertState)
    (event_type severity : String) (details : List (String × String))
    (src tgt : Option String) (now : Int)
    (h : should_send_alert st.last_alert_time event_type severity now
      = false) :
    trigger_alert st event_type severity details src tgt now
      = { sent := false, state := st, appended := none,
          email_attempted := false } := by
  rw [trigger_alert, if_pos (by simp [h])]

/-- Witness for C10: a `"medium"` alert of a type last recorded 100 s
ago is throttled and the call is a no-op. -/
theorem C10_trigger_alert_throttled_pure_witness :
    should_send_alert [("port_scan", 900)] "port_scan" "medium" 1000 = false
    ∧ trigger_alert
        { alert_history := [], last_alert_time := [("port_scan", 900)],
          email_configured := true }
        "port_scan" "medium" [("message", "scan")] (some "dev") none 1000
      = { sent := false,
          state := { alert_history := [],
                     last_alert_time := [("port_scan", 900)],
                     email_configured := true },
          appended := none, email_attempted := false } :=
  ⟨by decide, C10_trigger_alert_throttled_pure
    { alert_history := [], last_alert_time := [("port_scan", 900)],
      email_configured := true }
    "port_scan" "medium" [("message", "scan")] (some "dev") none 1000
    (by decide)⟩

/-- A throttled `trigger_alert` call is a pure no-op. -/
theorem trigger_alert_neg (st : AlertState) (event_type severity : String)
    (details : List (String × String)) (src tgt : Option String) (now : Int)
    (h : should_send_alert st.last_alert_time event_type severity now
      = false) :
    trigger_alert st event_type severity details src tgt now
      = { sent := false, state := st, appended := none,
          email_attempted := false } := by
  rw [trigger_alert, if_pos (by simp [h])]


/-- Retaking the last `k` elements after appending one element to a
list already cut to its last `k` elements is the same as cutting the
extended original list. -/
theorem rtake_append_singleton {α : Type} (l : List α) (a : α) (k : ℕ) :
    (l.rtake k ++ [a]).rtake k = (l ++ [a]).rtake k := by
  cases k with
  | zero => rw [List.rtake_zero, List.rtake_zero]
  | succ k =>
      rw [List.rtake_eq_reverse_take_reverse
          (l := List.rtake l (k + 1) ++ [a]),
        List.rtake_eq_reverse_take_reverse (l := l ++ [a]),
        List.reverse_append, List.reverse_append]
      simp only [List.reverse_cons, List.reverse_nil, List.nil_append,
        List.singleton_append, List.take_succ_cons]
      rw [List.rtake_eq_reverse_take_reverse, List.reverse_reverse,
        List.take_take, min_eq_left (Nat.le_succ k)]

/-- The history-truncation step of `trigger_alert` preserves the
"history is the last 100 appended entries" invariant. -/
theorem trunc_step {α : Type} (acc hist : List α) (d : α)
    (h : hist = acc.rtake 100) :
    (if (hist ++ [d]).length > 100 then
       (hist ++ [d]).drop ((hist ++ [d]).length - 100)
     else hist ++ [d])
      = (acc ++ [d]).rtake 100 := by
  subst h
  by_cases hlen : (acc.rtake 100 ++ [d]).length > 100
  · rw [if_pos hlen]
    exact rtake_append_singleton acc d 100
  · rw [if_neg hlen]
    rw [List.rtake, List.length_append, List.length_drop,
      List.length_singleton] at hlen
    have hlen' : acc.length ≤ 99 := by omega
    rw [List.rtake, List.rtake, show acc.length - 100 = 0 by omega,
      List.drop_zero,
      show (acc ++ [d]).length - 100 = 0 by
        rw [List.length_append, List.length_singleton]; omega,
      List.drop_zero]

/-- One `trigger_alert` call preserves the "history is the last 100
appended entries" invariant, counting its own appended entry. -/
theorem trigger_alert_invariant (st : AlertState)
    (event_type severity : String) (details : List (String × String))
    (src tgt : Option String) (now : Int) (acc : List AlertData)
    (h : st.alert_history = acc.rtake 100) :
    (trigger_alert st event_type severity details src tgt
      now).state.alert_history
      = (acc ++ (trigger_alert st event_type severity details src tgt
          now).appended.toList).rtake 100 := by
  by_cases hs : should_send_alert st.last_alert_time event_type severity now
      = true
  · rw [trigger_alert, if_neg (by simp [hs])]
    exact trunc_step acc st.alert_history _ h
  · rw [trigger_alert_neg st event_type severity details src tgt now
      (by simpa using hs)]
    simpa using h

/-- Along any replay of `trigger_alert` calls, the alert history is the
last 100 entries of everything appended so far. -/
theorem run_alerts_history (calls : List TriggerCall) :
    ∀ (st : AlertState) (acc : List AlertData),
      st.alert_history = acc.rtake 100 →
      (run_alerts st calls).1.alert_history
        = (acc ++ (run_alerts st calls).2).rtake 100 := by
  induction calls with
  | nil => intro st acc h; simpa [run_alerts] using h
  | cons c rest ih =>
      intro st acc h
      rw [run_alerts]
      show (run_alerts (trigger_alert st c.event_type c.severity c.details
          c.source_device c.target_device c.now).state rest).1.alert_history
        = (acc ++ ((trigger_alert st c.event_type c.severity c.details
              c.source_device c.target_device c.now).appended.toList
            ++ (run_alerts (trigger_alert st c.event_type c.severity
                c.details c.source_device c.target_device
                c.now).state rest).2)).rtake 100
      rw [← List.append_assoc]
      exact ih _ _ (trigger_alert_invariant st c.event_type c.severity
        c.details c.source_device c.target_device c.now acc h)

/-- C8: after any sequence of `trigger_alert` calls on a fresh manager,
the in-memory alert history holds at most 100 entries, and it is
exactly the last 100 (i.e. most recently appended) of all the entries
ever appended, in order. -/
theorem C8_alert_history_bounded (email_configured : Bool)
    (calls : List TriggerCall) :
    (run_alerts (AlertState.initial email_configured)
      calls).1.alert_history.length ≤ 100
    ∧ (run_alerts (AlertState.initial email_configured)
        calls).1.alert_history
      = ((run_alerts (AlertState.initial email_configured)
          calls).2).rtake 100 := by
  have h := run_alerts_history calls (AlertState.initial email_configured) []
    (by simp [AlertState.initial])
  simp only [List.nil_append] at h
  refine ⟨?_, h⟩
  rw [h, List.rtake, List.length_drop]
  omega

/-! ## Theorems: bandwidth anomaly (claim C5) -/

/-- C5: on a non-empty window of bandwidth snapshots,
`_analyze_bandwidth` raises a `high_bandwidth` alert iff the peak
throughput exceeds the threshold, with severity `"high"` above
2×threshold, `"medium"` above 1.5×threshold and `"low"` otherwise; in
particular a peak of exactly 3×threshold (with a positive threshold)
yields exactly the one alert `high_bandwidth`/`high`. -/
theorem C5_analyze_bandwidth (bandwidth_metrics : List BwPoint)
    (bandwidth_threshold : ℚ) (bandwidth_history : List BwHistEntry)
    (now : Int) (hne : bandwidth_metrics ≠ []) :
    ((analyze_bandwidth bandwidth_metrics bandwidth_threshold
        bandwidth_history now).1.isSome
      ↔ peak_mbps bandwidth_metrics > bandwidth_threshold)
    ∧ (∀ a, (analyze_bandwidth bandwidth_metrics bandwidth_threshold
          bandwidth_history now).1 = some a →
        a.event_type = "high_bandwidth"
        ∧ a.severity
          = (if peak_mbps bandwidth_metrics > bandwidth_threshold * 2 then
               "high"
             else if peak_mbps bandwidth_metrics
                 > bandwidth_threshold * (3/2) then "medium"
             else "low"))
    ∧ (0 < bandwidth_threshold →
        peak_mbps bandwidth_metrics = 3 * bandwidth_threshold →
        (analyze_bandwidth bandwidth_metrics bandwidth_threshold
            bandwidth_history now).1
          = some { event_type := "high_bandwidth", severity := "high" }) := by
  match bandwidth_metrics, hne with
  | m :: ms, _ =>
      rw [show (analyze_bandwidth (m :: ms) bandwidth_threshold
          bandwidth_history now).1
        = (if peak_mbps (m :: ms) > bandwidth_threshold then
            some { event_type := "high_bandwidth",
                   severity :=
                     if peak_mbps (m :: ms) > bandwidth_threshold * 2 then
                       "high"
                     else if peak_mbps (m :: ms)
                         > bandwidth_threshold * (3/2) then "medium"
                     else "low" }
          else none) from rfl]
      refine ⟨?_, ?_, ?_⟩
      · split_ifs with hc <;> simp [hc]
      · intro a ha
        split_ifs at ha ⊢ with h1 h2 h3
        all_goals cases ha
        all_goals exact ⟨rfl, rfl⟩
      · intro hthr hpeak
        rw [if_pos (by rw [hpeak]; linarith),
          if_pos (by rw [hpeak]; linarith)]

/-- Witness for C5: one snapshot at 150 Mbps against a 50 Mbps
threshold (peak = 3×threshold) produces the single high-severity
alert. -/
theorem C5_analyze_bandwidth_witness :
    ([({ total_bps := some 150000000 } : BwPoint)] ≠ [])
    ∧ (analyze_bandwidth [{ total_bps := some 150000000 }] 50 [] 0).1
        = some { event_type := "high_bandwidth", severity := "high" } := by
  refine ⟨by simp, ?_⟩
  exact (C5_analyze_bandwidth [{ total_bps := some 150000000 }] 50 [] 0
    (by simp)).2.2 (by norm_num)
    (by norm_num [peak_mbps, listMax])

/-! ## Theorems: new-device classification (claim C7) -/

/-- The severity decided by `_handle_new_device`, as an explicit
conditional. -/
theorem handle_new_device_severity
    (device_history : List (String × DeviceHistory))
    (device : AnalyzerDevice) :
    (handle_new_device device_history device).severity
      = if (suspicious_vendors.contains (device.vendor.getD "Unknown").toLower
            || suspicious_hostnames.any (fun s =>
                 strContains (device.hostname.getD "Unknown").toLower s)
            || (match lookupA device_history device.mac with
                | none => false
                | some h =>
                    !((h.connections.filterMap HistConn.ip).contains
                        device.ip)
                    && !(h.connections.filterMap
                        HistConn.ip).isEmpty)) then "medium"
        else "low" := rfl

/-- C7: `_handle_new_device` decides severity `"medium"` iff the vendor
(lowercased, defaulting to `"Unknown"`) is one of the suspicious
vendors, or the lowercased hostname contains one of the suspicious
substrings, or the MAC's history records a non-empty set of previous
IPs none of which is the current IP; otherwise `"low"`.  In all cases
the triggered alert and the persisted event carry event type
`"new_device"`. -/
theorem C7_handle_new_device
    (device_history : List (String × DeviceHistory))
    (device : AnalyzerDevice) :
    ((handle_new_device device_history device).severity = "medium"
      ↔ ((device.vendor.getD "Unknown").toLower ∈ suspicious_vendors
         ∨ (∃ s ∈ suspicious_hostnames,
             s.data <:+: (device.hostname.getD "Unknown").toLower.data)
         ∨ (∃ h, lookupA device_history device.mac = some h
             ∧ device.ip ∉ h.connections.filterMap HistConn.ip
             ∧ h.connections.filterMap HistConn.ip ≠ [])))
    ∧ ((handle_new_device device_history device).severity = "medium"
        ∨ (handle_new_device device_history device).severity = "low")
    ∧ (handle_new_device device_history device).alert.event_type
        = "new_device"
    ∧ (handle_new_device device_history device).event.event_type
        = "new_device" := by
  refine ⟨?_, ?_, rfl, rfl⟩
  · rw [handle_new_device_severity]
    have hml : ∀ b : Bool,
        ((if b then "medium" else "low") = ("medium" : String)) ↔ b = true :=
      fun b => by cases b <;> simp
    rw [hml]
    cases hl : lookupA device_history device.mac with
    | none => simp [hl, strContains, List.elem_iff, or_assoc]
    | some hrec => simp [hl, strContains, List.elem_iff, or_assoc]
  · rw [handle_new_device_severity]
    split_ifs <;> simp

/-! ## Theorems: merging scan results (claim C6) -/

theorem lookupA_eq_none_iff {β : Type} (l : List (String × β)) (k : String) :
    lookupA l k = none ↔ k ∉ keysA l := by
  induction l with
  | nil => simp [lookupA, keysA]
  | cons p rest ih =>
      obtain ⟨a, b⟩ := p
      rw [lookupA_cons]
      by_cases ha : a = k
      · simp [ha, keysA]
      · simp only [if_neg ha, ih, keysA, List.map_cons, List.mem_cons]
        constructor
        · intro h hc
          rcases hc with hc | hc
          · exact ha hc.symm
          · exact h hc
        · intro h hc
          exact h (Or.inr hc)

theorem lookupA_isSome_iff {β : Type} (l : List (String × β)) (k : String) :
    (lookupA l k).isSome ↔ k ∈ keysA l := by
  rw [← not_iff_not, ← lookupA_eq_none_iff]
  simp [Option.isSome_iff_ne_none]

theorem lookupA_of_mem_nodup {β : Type} (l : List (String × β))
    (k : String) (v : β) (hm : (k, v) ∈ l) (hn : (keysA l).Nodup) :
    lookupA l k = some v := by
  induction l with
  | nil => simp at hm
  | cons p rest ih =>
      obtain ⟨a, b⟩ := p
      rw [keysA, List.map_cons, List.nodup_cons] at hn
      rw [lookupA_cons]
      rcases List.mem_cons.mp hm with hm | hm
      · cases hm
        rw [if_pos rfl]
      · have hk : k ∈ keysA rest := List.mem_map.mpr ⟨(k, v), hm, rfl⟩
        have ha : a ≠ k := fun h => hn.1 (h ▸ hk)
        rw [if_neg ha]
        exact ih hm hn.2

/-- The scan-method rewrite of `ping_step` keeps every key. -/
theorem keysA_ping_map (m : List (String × ScanDevice)) (mac : String) :
    keysA (m.map (fun p =>
      if p.1 = mac then (p.1, { p.2 with scan_method := "arp+ping" })
      else p)) = keysA m := by
  rw [keysA, keysA, List.map_map]
  apply List.map_congr_left
  intro p _
  by_cases hp : p.1 = mac <;> simp [hp]

/-- The scan-method rewrite of `ping_step` does not move other keys'
bindings. -/
theorem lookupA_ping_map_ne (m : List (String × ScanDevice))
    (mac k : String) (h : k ≠ mac) :
    lookupA (m.map (fun p =>
      if p.1 = mac then (p.1, { p.2 with scan_method := "arp+ping" })
      else p)) k = lookupA m k := by
  induction m with
  | nil => simp
  | cons p rest ih =>
      obtain ⟨a, b⟩ := p
      simp only [List.map_cons]
      by_cases ha : a = mac
      · rw [show (if (a, b).1 = mac
              then ((a, b).1, { (a, b).2 with scan_method := "arp+ping" })
              else (a, b))
            = (a, { b with scan_method := "arp+ping" }) by simp [ha],
          lookupA_cons, lookupA_cons]
        by_cases hak : a = k
        · exact absurd (hak ▸ ha) h
        · rw [if_neg hak, if_neg hak, ih]
      · rw [show (if (a, b).1 = mac
              then ((a, b).1, { (a, b).2 with scan_method := "arp+ping" })
              else (a, b)) = (a, b) by simp [ha],
          lookupA_cons, lookupA_cons]
        by_cases hak : a = k
        · simp [hak]
        · rw [if_neg hak, if_neg hak, ih]

/-- Keys of the ping fold stay duplicate-free. -/
theorem pingfold_keys_nodup (ping : List ScanDevice) :
    ∀ m : List (String × ScanDevice), (keysA m).Nodup →
      (keysA (ping.foldl ping_step m)).Nodup := by
  induction ping with
  | nil => intro m h; simpa using h
  | cons d rest ih =>
      intro m h
      rw [List.foldl_cons]
      apply ih
      rw [ping_step]
      by_cases hd : (lookupA m d.mac).isSome
      · rw [if_pos hd, keysA_ping_map]
        exact h
      · rw [if_neg hd, keysA, List.map_append]
        rw [List.nodup_append]
        refine ⟨h, List.nodup_singleton _, ?_⟩
        intro a ha hb
        rw [List.map_singleton, List.mem_singleton] at hb
        subst hb
        have hnone : lookupA m d.mac = none := by
          cases hl : lookupA m d.mac with
          | none => rfl
          | some w => rw [hl] at hd; simp at hd
        exact (lookupA_eq_none_iff m d.mac).mp hnone ha

/-- Keys of the ping fold only grow. -/
theorem pingfold_keys_mono (ping : List ScanDevice) :
    ∀ m : List (String × ScanDevice), ∀ k, k ∈ keysA m →
      k ∈ keysA (ping.foldl ping_step m) := by
  induction ping with
  | nil => intro m k h; simpa using h
  | cons d rest ih =>
      intro m k h
      rw [List.foldl_cons]
      apply ih
      rw [ping_step]
      by_cases hd : (lookupA m d.mac).isSome
      · rw [if_pos hd, keysA_ping_map]
        exact h
      · rw [if_neg hd, keysA, List.map_append]
        exact List.mem_append_left _ h

/-- Every ping MAC ends up among the keys of the ping fold. -/
theorem pingfold_keys_cover (ping : List ScanDevice) :
    ∀ m : List (String × ScanDevice), ∀ d ∈ ping,
      d.mac ∈ keysA (ping.foldl ping_step m) := by
  induction ping with
  | nil => intro m d h; simp at h
  | cons e rest ih =>
      intro m d hd
      rw [List.foldl_cons]
      rcases List.mem_cons.mp hd with hd | hd
      · subst hd
        apply pingfold_keys_mono
        rw [ping_step]
        by_cases he : (lookupA m d.mac).isSome
        · rw [if_pos he, keysA_ping_map]
          exact (lookupA_isSome_iff m d.mac).mp he
        · rw [if_neg he, keysA, List.map_append, List.map_singleton]
          exact List.mem_append_right _ (List.mem_singleton.mpr rfl)
      · exact ih _ d hd

/-- Every binding of the ping fold keeps its device's MAC as its key,
provided the incoming map does. -/
theorem pingfold_key_val (ping : List ScanDevice) :
    ∀ m : List (String × ScanDevice), (∀ p ∈ m, (p.2).mac = p.1) →
      ∀ p ∈ ping.foldl ping_step m, (p.2).mac = p.1 := by
  induction ping with
  | nil => intro m h p hp; exact h p (by simpa using hp)
  | cons d rest ih =>
      intro m h
      rw [List.foldl_cons]
      apply ih
      intro p hp
      rw [ping_step] at hp
      by_cases hd : (lookupA m d.mac).isSome
      · rw [if_pos hd] at hp
        obtain ⟨q, hq, hqp⟩ := List.mem_map.mp hp
        by_cases hq1 : q.1 = d.mac
        · rw [if_pos hq1] at hqp
          cases hqp
          exact h q hq
        · rw [if_neg hq1] at hqp
          cases hqp
          exact h _ hq
      · rw [if_neg hd] at hp
        rcases List.mem_append.mp hp with hp | hp
        · exact h p hp
        · rw [List.mem_singleton] at hp
          subst hp
          rfl

/-- One `ping_step` keeps the keys duplicate-free. -/
theorem ping_step_keys_nodup (m : List (String × ScanDevice))
    (d : ScanDevice) (h : (keysA m).Nodup) :
    (keysA (ping_step m d)).Nodup := by
  rw [ping_step]
  by_cases hd : (lookupA m d.mac).isSome
  · rw [if_pos hd, keysA_ping_map]
    exact h
  · rw [if_neg hd, keysA, List.map_append, List.nodup_append]
    refine ⟨h, List.nodup_singleton _, ?_⟩
    intro a ha hb
    rw [List.map_singleton, List.mem_singleton] at hb
    subst hb
    have hnone : lookupA m d.mac = none := by
      cases hl : lookupA m d.mac with
      | none => rfl
      | some w => rw [hl] at hd; simp at hd
    exact (lookupA_eq_none_iff m d.mac).mp hnone ha

/-- A binding with a key other than the stepped device's MAC survives
one `ping_step` untouched. -/
theorem ping_step_mem_ne (m : List (String × ScanDevice)) (d : ScanDevice)
    (k : String) (v : ScanDevice) (hm : (k, v) ∈ m) (hk : k ≠ d.mac) :
    (k, v) ∈ ping_step m d := by
  rw [ping_step]
  by_cases hd : (lookupA m d.mac).isSome
  · rw [if_pos hd]
    exact List.mem_map.mpr ⟨(k, v), hm, by simp [hk]⟩
  · rw [if_neg hd]
    exact List.mem_append_left _ hm

/-- Through the whole ping fold, an existing binding survives — with
its `scan_method` rewritten to `"arp+ping"` exactly when its key occurs
among the ping MACs. -/
theorem pingfold_update (ping : List ScanDevice) :
    ∀ (_ : (ping.map ScanDevice.mac).Nodup)
      (m : List (String × ScanDevice)) (_ : (keysA m).Nodup)
      (k : String) (v : ScanDevice), (k, v) ∈ m →
      (k, if k ∈ ping.map ScanDevice.mac
          then { v with scan_method := "arp+ping" } else v)
        ∈ ping.foldl ping_step m := by
  induction ping with
  | nil => intro _ m _ k v h; simpa using h
  | cons d rest ih =>
      intro hping m hkeys k v hm
      rw [List.map_cons, List.nodup_cons] at hping
      rw [List.foldl_cons]
      by_cases hk : k = d.mac
      · have hlk : lookupA m d.mac = some v := by
          rw [← hk]
          exact lookupA_of_mem_nodup m k v hm hkeys
        have hstep : ping_step m d
            = m.map (fun p =>
                if p.1 = d.mac then
                  (p.1, { p.2 with scan_method := "arp+ping" })
                else p) := by
          rw [ping_step, if_pos (by simp [hlk])]
        have hmem' : (k, { v with scan_method := "arp+ping" })
            ∈ ping_step m d := by
          rw [hstep]
          exact List.mem_map.mpr ⟨(k, v), hm, by simp [hk]⟩
        have h2 := ih hping.2 _ (ping_step_keys_nodup m d hkeys) k
          { v with scan_method := "arp+ping" } hmem'
        rw [if_neg (show k ∉ rest.map ScanDevice.mac by
          rw [hk]; exact hping.1)] at h2
        rw [if_pos (show k ∈ (d :: rest).map ScanDevice.mac by
          rw [List.map_cons]; exact List.mem_cons.mpr (Or.inl hk))]
        exact h2
      · have h2 := ih hping.2 _ (ping_step_keys_nodup m d hkeys) k v
          (ping_step_mem_ne m d k v hm hk)
        by_cases hmem : k ∈ rest.map ScanDevice.mac
        · rw [if_pos hmem] at h2
          rw [if_pos (show k ∈ (d :: rest).map ScanDevice.mac by
            rw [List.map_cons]; exact List.mem_cons.mpr (Or.inr hmem))]
          exact h2
        · rw [if_neg hmem] at h2
          rw [if_neg (show k ∉ (d :: rest).map ScanDevice.mac by
            rw [List.map_cons]
            intro hc
            rcases List.mem_cons.mp hc with hc | hc
            · exact hk hc
            · exact hmem hc)]
          exact h2

/-- A ping device whose MAC the map does not yet hold ends up stored
unchanged under its own MAC. -/
theorem pingfold_insert (ping : List ScanDevice) :
    ∀ (_ : (ping.map ScanDevice.mac).Nodup)
      (m : List (String × ScanDevice)) (_ : (keysA m).Nodup)
      (d : ScanDevice), d ∈ ping → lookupA m d.mac = none →
      (d.mac, d) ∈ ping.foldl ping_step m := by
  induction ping with
  | nil => intro _ _ _ d h; simp at h
  | cons e rest ih =>
      intro hping m hkeys d hd hnone
      rw [List.map_cons, List.nodup_cons] at hping
      rw [List.foldl_cons]
      rcases List.mem_cons.mp hd with hd | hd
      · subst hd
        have hstep : ping_step m d = m ++ [(d.mac, d)] := by
          rw [ping_step, if_neg (by simp [hnone])]
        have hkeys' : (keysA (ping_step m d)).Nodup :=
          ping_step_keys_nodup m d hkeys
        have hmem : (d.mac, d) ∈ ping_step m d := by
          rw [hstep]
          exact List.mem_append_right _ (List.mem_singleton.mpr rfl)
        have h2 := pingfold_update rest hping.2 _ hkeys' d.mac d hmem
        rw [if_neg hping.1] at h2
        exact h2
      · have hne : d.mac ≠ e.mac := by
          intro hc
          exact hping.1 (hc ▸ List.mem_map.mpr ⟨d, hd, rfl⟩)
        have hnone' : lookupA (ping_step m e) d.mac = none := by
          rw [ping_step]
          by_cases he : (lookupA m e.mac).isSome
          · rw [if_pos he, lookupA_ping_map_ne m e.mac d.mac hne]
            exact hnone
          · rw [if_neg he, lookupA_append_of_none m _ _ hnone, lookupA_cons,
              if_neg (fun h => hne h.symm)]
            rfl
        exact ih hping.2 _ (ping_step_keys_nodup m e hkeys) d hd hnone'

/-- With duplicate-free ARP MACs, the ARP fold just lists the ARP
devices keyed by MAC. -/
theorem arpfold_eq (arp : List ScanDevice) :
    ∀ init : List (String × ScanDevice),
      (arp.map ScanDevice.mac).Nodup →
      (∀ d ∈ arp, lookupA init d.mac = none) →
      arp.foldl arp_step init = init ++ arp.map (fun d => (d.mac, d)) := by
  induction arp with
  | nil => intro init _ _; simp
  | cons d rest ih =>
      intro init hnodup hdisj
      rw [List.map_cons, List.nodup_cons] at hnodup
      have hd : ∀ e ∈ rest, lookupA (init ++ [(d.mac, d)]) e.mac = none := by
        intro e he
        have hne : e.mac ≠ d.mac := fun hc =>
          hnodup.1 (hc ▸ List.mem_map.mpr ⟨e, he, rfl⟩)
        rw [lookupA_append_of_none init _ _
            (hdisj e (List.mem_cons_of_mem _ he)),
          lookupA_cons, if_neg (fun h => hne h.symm)]
        rfl
      rw [List.foldl_cons, arp_step,
        setA_of_none init d.mac d (hdisj d (List.mem_cons_self _ _)),
        ih _ hnodup.2 hd, List.append_assoc]
      rfl

/-- Counterexample to C6 as stated: with an empty ARP list and a ping
list carrying the same MAC twice (one device with two IPs), the MAC
appears in only one of the two lists, yet the merged record's
`scan_method` is rewritten to `"arp+ping"` — the second ping occurrence
takes the "already present" branch.  The device is not returned
unchanged. -/
theorem C6_merge_scan_results_counterexample :
    merge_scan_results []
      [{ ip := "10.0.0.1", mac := "M", last_seen := "T0",
         scan_method := "ping" },
       { ip := "10.0.0.2", mac := "M", last_seen := "T1",
         scan_method := "ping" }]
      = [{ ip := "10.0.0.1", mac := "M", last_seen := "T0",
           scan_method := "arp+ping" }] := by
  rfl

/-- C6 amended: for input lists in which no MAC occurs twice within the
same list, `_merge_scan_results` returns exactly one device per
distinct MAC (the output MACs are duplicate-free and cover every input
MAC); a MAC present in both lists yields the ARP record with its
`scan_method` set to `"arp+ping"`; a MAC present in only one list
yields that record unchanged. -/
theorem C6_merge_scan_results_amended (arp_devices ping_devices :
    List ScanDevice)
    (harp : (arp_devices.map ScanDevice.mac).Nodup)
    (hping : (ping_devices.map ScanDevice.mac).Nodup) :
    ((merge_scan_results arp_devices ping_devices).map
      ScanDevice.mac).Nodup
    ∧ (∀ d ∈ arp_devices ++ ping_devices,
        d.mac ∈ (merge_scan_results arp_devices ping_devices).map
          ScanDevice.mac)
    ∧ (∀ d ∈ arp_devices, d.mac ∈ ping_devices.map ScanDevice.mac →
        { d with scan_method := "arp+ping" }
          ∈ merge_scan_results arp_devices ping_devices)
    ∧ (∀ d ∈ arp_devices, d.mac ∉ ping_devices.map ScanDevice.mac →
        d ∈ merge_scan_results arp_devices ping_devices)
    ∧ (∀ d ∈ ping_devices, d.mac ∉ arp_devices.map ScanDevice.mac →
        d ∈ merge_scan_results arp_devices ping_devices) := by
  have hm0 : arp_devices.foldl arp_step [] =
      arp_devices.map (fun d => (d.mac, d)) :=
    arpfold_eq arp_devices [] harp (fun d _ => rfl)
  have hkeys0 : keysA (arp_devices.map (fun d => (d.mac, d)))
      = arp_devices.map ScanDevice.mac := by
    rw [keysA, List.map_map]
    rfl
  have hkeys0n : (keysA (arp_devices.map (fun d => (d.mac, d)))).Nodup := by
    rw [hkeys0]; exact harp
  have hkv : ∀ p ∈ ping_devices.foldl ping_step
      (arp_devices.map (fun d => (d.mac, d))), (p.2).mac = p.1 :=
    pingfold_key_val ping_devices _ (by
      intro p hp
      obtain ⟨d, _, rfl⟩ := List.mem_map.mp hp
      rfl)
  have hout : (merge_scan_results arp_devices ping_devices).map
      ScanDevice.mac
      = keysA (ping_devices.foldl ping_step
          (arp_devices.map (fun d => (d.mac, d)))) := by
    rw [merge_scan_results, hm0, List.map_map, keysA]
    exact List.map_congr_left (fun p hp => hkv p hp)
  refine ⟨?_, ?_, ?_, ?_, ?_⟩
  · rw [hout]
    exact pingfold_keys_nodup ping_devices _ hkeys0n
  · intro d hd
    rw [hout]
    rcases List.mem_append.mp hd with hd | hd
    · apply pingfold_keys_mono
      rw [hkeys0]
      exact List.mem_map.mpr ⟨d, hd, rfl⟩
    · exact pingfold_keys_cover ping_devices _ d hd
  · intro d hd hmem
    have hp := pingfold_update ping_devices hping _ hkeys0n d.mac d
      (List.mem_map.mpr ⟨d, hd, rfl⟩)
    rw [if_pos hmem] at hp
    rw [merge_scan_results, hm0]
    exact List.mem_map.mpr ⟨(d.mac, { d with scan_method := "arp+ping" }),
      hp, rfl⟩
  · intro d hd hmem
    have hp := pingfold_update ping_devices hping _ hkeys0n d.mac d
      (List.mem_map.mpr ⟨d, hd, rfl⟩)
    rw [if_neg hmem] at hp
    rw [merge_scan_results, hm0]
    exact List.mem_map.mpr ⟨(d.mac, d), hp, rfl⟩
  · intro d hd hmem
    have hnone : lookupA (arp_devices.map (fun e => (e.mac, e))) d.mac
        = none := by
      rw [lookupA_eq_none_iff, hkeys0]
      exact hmem
    have hp := pingfold_insert ping_devices hping _ hkeys0n d hd hnone
    rw [merge_scan_results, hm0]
    exact List.mem_map.mpr ⟨(d.mac, d), hp, rfl⟩

/-- Witness for the amended C6: one ARP device and one ping device with
the same MAC merge into the single ARP record tagged `"arp+ping"`. -/
theorem C6_merge_scan_results_amended_witness :
    (([{ ip := "10.0.0.1", mac := "M", last_seen := "T0",
         scan_method := "arp" }] : List ScanDevice).map
      ScanDevice.mac).Nodup
    ∧ (([{ ip := "10.0.0.1", mac := "M", last_seen := "T1",
           scan_method := "ping" }] : List ScanDevice).map
        ScanDevice.mac).Nodup
    ∧ ({ ip := "10.0.0.1", mac := "M", last_seen := "T0",
         scan_method := "arp+ping" } : ScanDevice)
        ∈ merge_scan_results
            [{ ip := "10.0.0.1", mac := "M", last_seen := "T0",
               scan_method := "arp" }]
            [{ ip := "10.0.0.1", mac := "M", last_seen := "T1",
               scan_method := "ping" }] := by
  refine ⟨by decide, by decide, ?_⟩
  exact (C6_merge_scan_results_amended
    [{ ip := "10.0.0.1", mac := "M", last_seen := "T0",
       scan_method := "arp" }]
    [{ ip := "10.0.0.1", mac := "M", last_seen := "T1",
       scan_method := "ping" }]
    (by decide) (by decide)).2.2.1
    { ip := "10.0.0.1", mac := "M", last_seen := "T0",
      scan_method := "arp" }
    (by decide) (by decide)

/-! ## Theorems: port-scan cache cleanup (claim C9) -/

/-- C9: after `_cleanup_cache`, every surviving target entry has a
parseable `first_seen` at most 86400 s before the cleanup time, and
every surviving MAC still has at least one target. -/
theorem C9_cleanup_cache (port_scan_cache : List (String × PortScanEntry))
    (now : Int) (mac : String) (entry : PortScanEntry)
    (hm : (mac, entry) ∈ cleanup_cache port_scan_cache now) :
    entry.targets ≠ []
    ∧ ∀ tip td, (tip, td) ∈ entry.targets →
        ∃ fs, td.first_seen = some fs ∧ now - fs ≤ 86400 := by
  rw [cleanup_cache] at hm
  rw [List.mem_filter] at hm
  obtain ⟨hmem, hpred⟩ := hm
  obtain ⟨p, hp, heq⟩ := List.mem_map.mp hmem
  constructor
  · intro hnil
    rw [hnil] at hpred
    simp at hpred
  · intro tip td htd
    have htargets : entry.targets = p.2.targets.filter (fun t =>
        match t.2.first_seen with
        | none => false
        | some fs => decide (¬ ((now - fs) > 86400))) := by
      have := congrArg Prod.snd heq
      simp only at this
      rw [← this]
    rw [htargets, List.mem_filter] at htd
    obtain ⟨-, hfs⟩ := htd
    cases hfirst : td.first_seen with
    | none => rw [hfirst] at hfs; simp at hfs
    | some fs =>
        rw [hfirst] at hfs
        simp only [decide_eq_true_eq, not_lt] at hfs
        exact ⟨fs, rfl, hfs⟩

/-- Witness for C9: a one-MAC cache whose single target is 100 s old
survives cleanup and satisfies the bounds. -/
theorem C9_cleanup_cache_witness :
    (("m", ({ targets := [("t", { ports := ∅, first_seen := some 0 })],
              last_alert := none } : PortScanEntry))
      ∈ cleanup_cache
          [("m", { targets := [("t", { ports := ∅, first_seen := some 0 })],
                   last_alert := none })] 100)
    ∧ (({ targets := [("t", { ports := ∅, first_seen := some 0 })],
          last_alert := none } : PortScanEntry).targets ≠ []
      ∧ ∀ tip td,
          (tip, td)
            ∈ ({ targets := [("t", { ports := ∅, first_seen := some 0 })],
                 last_alert := none } : PortScanEntry).targets →
          ∃ fs, td.first_seen = some fs ∧ (100 : Int) - fs ≤ 86400) := by
  refine ⟨by decide, ?_⟩
  exact C9_cleanup_cache
    [("m", { targets := [("t", { ports := ∅, first_seen := some 0 })],
             last_alert := none })] 100 "m"
    { targets := [("t", { ports := ∅, first_seen := some 0 })],
      last_alert := none }
    (by decide)

/-! ## Theorems: port-scan detection (claim C4) -/

/-- `process_target` only ever appends to the alert list; its behaviour
does not depend on the alerts accumulated so far. -/
theorem process_target_split (device : Option AnalyzerDevice) (now : Int)
    (entry : PortScanEntry) (alerts : List AlertReq)
    (t : String × (Finset Nat × List Int)) :
    process_target device now (entry, alerts) t
      = ((process_target device now (entry, []) t).1,
         alerts ++ (process_target device now (entry, []) t).2) := by
  obtain ⟨tip, data⟩ := t
  simp only [process_target]
  split_ifs with h1 h2
  · cases device <;> simp
  · simp
  · simp

/-- Alert-list decomposition of the whole per-target fold. -/
theorem foldl_pt_decompose (device : Option AnalyzerDevice) (now : Int) :
    ∀ (tgts : List (String × (Finset Nat × List Int)))
      (entry : PortScanEntry) (alerts : List AlertReq),
      tgts.foldl (process_target device now) (entry, alerts)
        = ((tgts.foldl (process_target device now) (entry, [])).1,
           alerts
             ++ (tgts.foldl (process_target device now) (entry, [])).2) := by
  intro tgts
  induction tgts with
  | nil => intro entry alerts; simp
  | cons t rest ih =>
      intro entry alerts
      rw [List.foldl_cons, List.foldl_cons,
        process_target_split device now entry alerts t,
        ih _ (alerts ++ (process_target device now (entry, []) t).2)]
      conv_rhs => rw [show process_target device now (entry, []) t
        = ((process_target device now (entry, []) t).1,
           (process_target device now (entry, []) t).2) from rfl]
      rw [ih _ (process_target device now (entry, []) t).2,
        List.append_assoc]

/-- With a last alert at most 3600 s old, a `process_target` fold emits
nothing and keeps the last-alert time. -/
theorem foldl_pt_blocked (device : Option AnalyzerDevice) (now : Int) :
    ∀ (tgts : List (String × (Finset Nat × List Int)))
      (entry : PortScanEntry) (alerts : List AlertReq) (t0 : Int),
      entry.last_alert = some t0 → now - t0 ≤ 3600 →
      (tgts.foldl (process_target device now) (entry, alerts)).2 = alerts
      ∧ (tgts.foldl (process_target device now)
          (entry, alerts)).1.last_alert = some t0 := by
  intro tgts
  induction tgts with
  | nil => intro entry alerts t0 hla _; exact ⟨rfl, hla⟩
  | cons t rest ih =>
      intro entry alerts t0 hla hle
      obtain ⟨tip, data⟩ := t
      have hcond : (match entry.last_alert with
          | none => true
          | some last => decide ((now - last) > 3600)) = false := by
        rw [hla]
        exact decide_eq_false (by omega)
      have h12 : (process_target device now (entry, alerts) (tip, data)).2
            = alerts
          ∧ (process_target device now (entry, alerts)
              (tip, data)).1.last_alert = entry.last_alert := by
        simp only [process_target]
        split_ifs with h1 h2
        · rw [hcond] at h2
          exact absurd h2 (by simp)
        · exact ⟨rfl, rfl⟩
        · exact ⟨rfl, rfl⟩
      rw [List.foldl_cons,
        show process_target device now (entry, alerts) (tip, data)
          = ((process_target device now (entry, alerts) (tip, data)).1,
             (process_target device now (entry, alerts) (tip, data)).2)
          from rfl,
        h12.1]
      exact ih _ alerts t0 (h12.2.trans hla) hle

/-- One `process_target` step either leaves the alert list and the
last-alert time alone, or — only with a device present and the
last-alert gate open — appends exactly one `port_scan` alert and stamps
the last-alert time to `now`. -/
theorem process_target_cases (device : Option AnalyzerDevice) (now : Int)
    (entry : PortScanEntry) (alerts : List AlertReq) (tip : String)
    (data : Finset Nat × List Int) :
    (∃ E : PortScanEntry,
        process_target device now (entry, alerts) (tip, data) = (E, alerts)
        ∧ E.last_alert = entry.last_alert)
    ∨ (∃ E : PortScanEntry,
        process_target device now (entry, alerts) (tip, data)
            = (E, alerts ++ [port_scan_alert])
        ∧ E.last_alert = some now) := by
  simp only [process_target]
  split_ifs with h1 h2
  · cases device with
    | some d => right; exact ⟨_, rfl, rfl⟩
    | none => left; exact ⟨_, rfl, rfl⟩
  · left; exact ⟨_, rfl, rfl⟩
  · left; exact ⟨_, rfl, rfl⟩

/-- A per-target fold started with an empty alert list emits either
nothing (keeping the last-alert time) or exactly one `port_scan` alert
(stamping the last-alert time to `now`). -/
theorem foldl_pt_emit (device : Option AnalyzerDevice) (now : Int) :
    ∀ (tgts : List (String × (Finset Nat × List Int)))
      (entry : PortScanEntry),
      (∀ a ∈ (tgts.foldl (process_target device now) (entry, [])).2,
        a = port_scan_alert)
      ∧ (((tgts.foldl (process_target device now) (entry, [])).2 = []
          ∧ (tgts.foldl (process_target device now)
              (entry, [])).1.last_alert = entry.last_alert)
        ∨ ((tgts.foldl (process_target device now) (entry, [])).2
              = [port_scan_alert]
          ∧ (tgts.foldl (process_target device now)
              (entry, [])).1.last_alert = some now)) := by
  intro tgts
  induction tgts with
  | nil => intro entry; exact ⟨by simp, Or.inl ⟨rfl, rfl⟩⟩
  | cons t rest ih =>
      intro entry
      obtain ⟨tip, data⟩ := t
      rw [List.foldl_cons]
      rcases process_target_cases device now entry [] tip data with
        ⟨E, hE, hla⟩ | ⟨E, hE, hla⟩
      · rw [hE]
        obtain ⟨ha, hd⟩ := ih E
        refine ⟨ha, ?_⟩
        rcases hd with ⟨h1, h2⟩ | ⟨h1, h2⟩
        · exact Or.inl ⟨h1, h2.trans hla⟩
        · exact Or.inr ⟨h1, h2⟩
      · rw [hE]
        simp only [List.nil_append] at hE ⊢
        have hb := foldl_pt_blocked device now rest E [port_scan_alert] now
          hla (by omega)
        refine ⟨?_, Or.inr ⟨hb.1, hb.2⟩⟩
        intro a ha
        rw [hb.1, List.mem_singleton] at ha
        exact ha

/-- When the accumulated port set for a processed target reaches 10,
the gate is open and the device is known, `process_target` emits the
alert and stamps `last_alert := now`. -/
theorem process_target_emits (device : Option AnalyzerDevice) (now : Int)
    (entry : PortScanEntry) (alerts : List AlertReq) (tip : String)
    (data : Finset Nat × List Int) (hdev : device.isSome)
    (hpass : entry.last_alert = none
      ∨ ∃ t0, entry.last_alert = some t0 ∧ now - t0 > 3600)
    (hcard : (oldPorts entry.targets tip ∪ data.1).card ≥ 10) :
    (process_target device now (entry, alerts) (tip, data)).2
        = alerts ++ [port_scan_alert]
    ∧ (process_target device now (entry, alerts) (tip, data)).1.last_alert
        = some now := by
  obtain ⟨d, hd⟩ := Option.isSome_iff_exists.mp hdev
  subst hd
  have hcur : ((lookupA entry.targets tip).getD
      { ports := ∅, first_seen := some now }).ports
      = oldPorts entry.targets tip := by
    rw [oldPorts]
    cases lookupA entry.targets tip <;> rfl
  have hcond : (match entry.last_alert with
      | none => true
      | some last => decide ((now - last) > 3600)) = true := by
    rcases hpass with hp | ⟨t0, hp, hgt⟩
    · rw [hp]
    · rw [hp]
      exact decide_eq_true hgt
  simp only [process_target]
  rw [hcur, if_pos hcard, if_pos hcond]
  exact ⟨rfl, rfl⟩

/-- When the accumulated port set for a processed target stays below
10, `process_target` emits nothing: it only merges the target's ports
into the cache. -/
theorem process_target_noemit (device : Option AnalyzerDevice) (now : Int)
    (entry : PortScanEntry) (alerts : List AlertReq) (tip : String)
    (data : Finset Nat × List Int)
    (hcard : ¬ (oldPorts entry.targets tip ∪ data.1).card ≥ 10) :
    ∃ v, process_target device now (entry, alerts) (tip, data)
      = ({ targets := setA entry.targets tip v,
           last_alert := entry.last_alert }, alerts) := by
  have hcur : ((lookupA entry.targets tip).getD
      { ports := ∅, first_seen := some now }).ports
      = oldPorts entry.targets tip := by
    rw [oldPorts]
    cases lookupA entry.targets tip <;> rfl
  simp only [process_target]
  rw [hcur, if_neg hcard]
  exact ⟨_, rfl⟩

/-- `setA` keeps association-list keys duplicate-free. -/
theorem setA_keys_nodup {β : Type} (l : List (String × β)) (k : String)
    (v : β) (h : (keysA l).Nodup) : (keysA (setA l k v)).Nodup := by
  cases hl : lookupA l k with
  | some w =>
      rw [keysA_setA_of_some l k v (by simp [hl])]
      exact h
  | none =>
      rw [keysA_setA_of_none l k v hl, List.nodup_append]
      refine ⟨h, List.nodup_singleton _, ?_⟩
      intro a ha hb
      rw [List.mem_singleton] at hb
      subst hb
      exact (lookupA_eq_none_iff l a).mp hl ha

/-- The target grouping of `_check_port_scan` lists every target IP
once. -/
theorem group_targets_keys_nodup (connections : List ConnEvent) :
    (keysA (group_targets connections)).Nodup := by
  rw [group_targets]
  suffices h : ∀ (cs : List ConnEvent)
      (acc : List (String × (Finset Nat × List Int))),
      (keysA acc).Nodup →
      (keysA (cs.foldl (fun targets conn =>
        match conn.target_ip, conn.target_port with
        | none, _ => targets
        | _, none => targets
        | some target_ip, some port =>
            let cur := (lookupA targets target_ip).getD (∅, [])
            setA targets target_ip
              (insert port cur.1, cur.2 ++ [conn.timestamp])) acc)).Nodup by
    exact h connections [] (by simp [keysA])
  intro cs
  induction cs with
  | nil => intro acc h; exact h
  | cons c rest ih =>
      intro acc h
      rw [List.foldl_cons]
      apply ih
      rcases hc : c.target_ip with - | tip
      · rcases hp : c.target_port with - | port <;> exact h
      · rcases hp : c.target_port with - | port
        · exact h
        · exact setA_keys_nodup _ _ _ h

/-- If some processed target's accumulated port set reaches 10 while
the device is known and the hourly gate is open, the per-target fold
emits an alert. -/
theorem foldl_pt_reach (device : Option AnalyzerDevice) (now : Int) :
    ∀ (tgts : List (String × (Finset Nat × List Int)))
      (entry : PortScanEntry),
      (keysA tgts).Nodup →
      device.isSome →
      (entry.last_alert = none
        ∨ ∃ t0, entry.last_alert = some t0 ∧ now - t0 > 3600) →
      (∃ p ∈ tgts, (oldPorts entry.targets p.1 ∪ p.2.1).card ≥ 10) →
      (tgts.foldl (process_target device now) (entry, [])).2 ≠ [] := by
  intro tgts
  induction tgts with
  | nil => intro entry _ _ _ hex; simp at hex
  | cons t rest ih =>
      intro entry hkeys hdev hpass hex
      obtain ⟨tip, data⟩ := t
      rw [List.foldl_cons]
      by_cases hcard : (oldPorts entry.targets tip ∪ data.1).card ≥ 10
      · have hemit := process_target_emits device now entry [] tip data
          hdev hpass hcard
        rw [show process_target device now (entry, []) (tip, data)
            = ((process_target device now (entry, []) (tip, data)).1,
               (process_target device now (entry, []) (tip, data)).2)
            from rfl,
          hemit.1, List.nil_append,
          foldl_pt_decompose device now rest _ [port_scan_alert]]
        simp
      · obtain ⟨v, hstep⟩ := process_target_noemit device now entry [] tip
          data hcard
        rw [hstep]
        rw [keysA, List.map_cons, List.nodup_cons] at hkeys
        obtain ⟨p, hp, hpcard⟩ := hex
        rcases List.mem_cons.mp hp with hp | hp
        · exact absurd (by rw [hp] at hpcard; exact hpcard) hcard
        · refine ih _ hkeys.2 hdev hpass ⟨p, hp, ?_⟩
          have hne : p.1 ≠ tip := by
            intro hceq
            exact hkeys.1 (hceq ▸ List.mem_map.mpr ⟨p, hp, rfl⟩)
          rw [show oldPorts (setA entry.targets tip v) p.1
              = oldPorts entry.targets p.1 from by
            rw [oldPorts, oldPorts,
              lookupA_setA_ne entry.targets tip p.1 v hne]]
          exact hpcard

/-- C4: for any MAC's cached entry and batch of connections, every
alert `_check_port_scan` emits is a `"port_scan"` alert at `"medium"`
severity; at most one is emitted per call; a call whose cached last
alert is at most 3600 s old emits nothing, however many ports or
targets accumulate; a call with the device known, the gate open (no
previous alert, or one strictly older than 3600 s) and some target's
accumulated distinct-port set reaching 10 emits exactly one; and after
an emitting call any further call within 3600 s emits nothing. -/
theorem C4_check_port_scan (cache_entry : Option PortScanEntry)
    (connections : List ConnEvent) (device : Option AnalyzerDevice)
    (now : Int) :
    (∀ a ∈ (check_port_scan cache_entry connections device now).2,
        a.event_type = "port_scan" ∧ a.severity = "medium")
    ∧ (check_port_scan cache_entry connections device now).2.length ≤ 1
    ∧ (∀ t0, (cache_entry.getD
          { targets := [], last_alert := none }).last_alert = some t0 →
        now - t0 ≤ 3600 →
        (check_port_scan cache_entry connections device now).2 = [])
    ∧ (device.isSome →
        ((cache_entry.getD
            { targets := [], last_alert := none }).last_alert = none
          ∨ ∃ t0, (cache_entry.getD
              { targets := [], last_alert := none }).last_alert = some t0
              ∧ now - t0 > 3600) →
        (∃ p ∈ group_targets connections,
            (oldPorts (cache_entry.getD
                { targets := [], last_alert := none }).targets p.1
              ∪ p.2.1).card ≥ 10) →
        (check_port_scan cache_entry connections device now).2.length = 1)
    ∧ ((check_port_scan cache_entry connections device now).2 ≠ [] →
        ∀ (connections₂ : List ConnEvent) (now₂ : Int),
          now₂ - now ≤ 3600 →
          (check_port_scan
            (some (check_port_scan cache_entry connections device now).1)
            connections₂ device now₂).2 = []) := by
  have hdef : check_port_scan cache_entry connections device now
      = (group_targets connections).foldl (process_target device now)
          (cache_entry.getD { targets := [], last_alert := none }, []) := rfl
  have hemit := foldl_pt_emit device now (group_targets connections)
    (cache_entry.getD { targets := [], last_alert := none })
  refine ⟨?_, ?_, ?_, ?_, ?_⟩
  · intro a ha
    rw [hdef] at ha
    have := hemit.1 a ha
    subst this
    exact ⟨rfl, rfl⟩
  · rw [hdef]
    rcases hemit.2 with ⟨h1, -⟩ | ⟨h1, -⟩ <;> simp [h1]
  · intro t0 h1 h2
    rw [hdef]
    exact (foldl_pt_blocked device now (group_targets connections) _ [] t0
      h1 h2).1
  · intro hdev hpass hex
    have hne := foldl_pt_reach device now (group_targets connections) _
      (group_targets_keys_nodup connections) hdev hpass hex
    rw [hdef]
    rcases hemit.2 with ⟨h1, -⟩ | ⟨h1, -⟩
    · exact absurd h1 hne
    · simp [h1]
  · intro hne connections₂ now₂ hle
    rcases hemit.2 with ⟨h1, -⟩ | ⟨h1, h2⟩
    · exact absurd (hdef ▸ h1) (hdef ▸ hne)
    · have hdef₂ : check_port_scan
          (some (check_port_scan cache_entry connections device now).1)
          connections₂ device now₂
          = (group_targets connections₂).foldl (process_target device now₂)
              ((check_port_scan cache_entry connections device now).1, [])
        := rfl
      rw [hdef₂]
      exact (foldl_pt_blocked device now₂ (group_targets connections₂) _ []
        now (hdef ▸ h2) hle).1

/-- Witness for C4: a fresh cache, ten distinct ports against one
target and a known device produce exactly one alert. -/
theorem C4_check_port_scan_witness :
    ((some sample_device).isSome = true)
    ∧ (((none : Option PortScanEntry).getD
        { targets := [], last_alert := none }).last_alert = none)
    ∧ (∃ p ∈ group_targets sample_connections,
        (oldPorts ((none : Option PortScanEntry).getD
            { targets := [], last_alert := none }).targets p.1
          ∪ p.2.1).card ≥ 10)
    ∧ (check_port_scan none sample_connections (some sample_device)
        0).2.length = 1 := by
  refine ⟨rfl, rfl, by decide, ?_⟩
  exact (C4_check_port_scan none sample_connections (some sample_device)
    0).2.2.2.1 rfl (Or.inl rfl) (by decide)

end NetworkMonitor
